import Mathlib

/-!
Verification of the hermes commodity-market simulator (src/hermes.py).

Shallow embedding: goods are `Fin 26` with fixed prices `1..26` (the Python
`PRICES` table), agents are records mirroring the `Agent` class (the Python
`goods` dict is a partial map, modelled as `Good → Option ℤ`, so a missing
dict key is `none`; the `_reserved_goods` dict is total over all 26 goods,
as in `Agent.__init__`), and the order book / matching engine mirrors the
`Stock` class.  The float `daily_limit` is modelled exactly as a rational.
The random choices of the source (`random.sample`, `random.shuffle`) are
determinized by extra index parameters: every outcome of the source's
random draws corresponds to some value of these parameters, and theorems
quantify over them.
-/

namespace Hermes

/-- Goods are the 26 symbols `A`..`Z` of the Python `PRICES` table. -/
abbrev Good := Fin 26

/-- `PRICES = dict((chr(x), x-64) for x in range(65, 91))`: good number `i`
(0-based) has fixed unit price `i + 1`. -/
def price (g : Good) : ℤ := (g.val : ℤ) + 1

/-- The 26 goods in the `A`..`Z` key order of the `PRICES` dict. -/
def allGoods : List Good := List.finRange 26

/-- The `Agent` class: `name`, `money`, the `goods` dict (partial map:
`none` models a missing dict key), the float `daily_limit` (modelled as a
rational), the `_reserved_goods` dict (total, initialised for every good),
and the `_today_sells` / `_today_buys` counters. -/
structure Agent where
  name : ℕ
  money : ℤ
  goods : Good → Option ℤ
  daily_limit : ℚ
  reserved_goods : Good → ℤ
  today_sells : ℤ
  today_buys : ℤ

/-- `Agent.__init__`: copies the given starting inventory as-is (missing
keys stay missing), and initialises `_reserved_goods` to `0` for every good
of the price table, `_today_sells = _today_buys = 0`. -/
def Agent.init (name : ℕ) (money : ℤ) (goods : Good → Option ℤ) (daily_limit : ℚ) : Agent :=
  { name := name, money := money, goods := goods, daily_limit := daily_limit,
    reserved_goods := fun _ => 0, today_sells := 0, today_buys := 0 }

/-- `Agent._goods_cost`: `sum(PRICES[good]*amount for good, amount in goods.items())`.
Missing keys contribute nothing, hence `getD 0`. -/
def Agent.goods_cost (a : Agent) : ℤ :=
  (allGoods.map fun g => price g * (a.goods g).getD 0).sum

/-- `Agent.finish_day`: drop all reserves and counters. -/
def Agent.finish_day (a : Agent) : Agent :=
  { a with today_buys := 0, today_sells := 0, reserved_goods := fun _ => 0 }

/-- The `Order` class (sans the derived `cost` attribute): the submitting
agent is referenced by its `name`. -/
structure Order where
  agent : ℕ
  good : Good
  amount : ℤ
  filled : Bool
deriving DecidableEq

/-- `Order.cost = PRICES[good]*amount`. -/
def Order.cost (o : Order) : ℤ := price o.good * o.amount

/-- The `Stock` order books: `sells` and `buys` are dicts good → list of
orders; a good that was never inserted maps to `[]`. -/
structure Stock where
  sells : Good → List Order
  buys : Good → List Order

/-- `Stock.sell`: append `Order(seller, good, amount)` to `sells[good]`
(creating the entry if absent). -/
def Stock.sell (st : Stock) (seller : ℕ) (good : Good) (amount : ℤ) : Stock :=
  let order : Order := { agent := seller, good := good, amount := amount, filled := false }
  { st with sells := Function.update st.sells good (st.sells good ++ [order]) }

/-- `Stock.buy`: append `Order(buyer, good, amount)` to `buys[good]`. -/
def Stock.buy (st : Stock) (buyer : ℕ) (good : Good) (amount : ℤ) : Stock :=
  let order : Order := { agent := buyer, good := good, amount := amount, filled := false }
  { st with buys := Function.update st.buys good (st.buys good ++ [order]) }

/-- `max_cost = daily_limit * _goods_cost() - _today_sells` of `gen_sell_order`. -/
def maxCost (a : Agent) : ℚ :=
  a.daily_limit * (a.goods_cost : ℚ) - (a.today_sells : ℚ)

/-- The `possible_goods` list comprehension of `gen_sell_order`: goods of the
`goods` dict with `amount - reserved > 0` and `PRICES[good] <= max_cost`,
in the dict's key order. -/
def possibleSellGoods (a : Agent) (max_cost : ℚ) : List Good :=
  allGoods.filter fun g =>
    match a.goods g with
    | some amt => decide (0 < amt - a.reserved_goods g) && decide ((price g : ℚ) ≤ max_cost)
    | none => false

/-- `random.sample(l, 1)[0]`, determinized by an index: any element of a
nonempty list is picked for a suitable `gi`; `none` on the empty list. -/
def pickGood (l : List Good) (gi : ℕ) : Option Good :=
  match l with
  | [] => none
  | g0 :: _ => some ((l.get? (gi % l.length)).getD g0)

/-- `max_amount = min(goods[good] - reserved[good], int(math.floor(max_cost/PRICES[good])))`. -/
def sell_max_amount (a : Agent) (good : Good) : ℤ :=
  min ((a.goods good).getD 0 - a.reserved_goods good) ⌊maxCost a / (price good : ℚ)⌋

/-- `amount = random.sample(range(1, max_amount+1), 1)[0]`, determinized by
an index: ranges over `1..max_amount` when `max_amount ≥ 1`. -/
def sell_amount (a : Agent) (good : Good) (ai : ℕ) : ℤ :=
  1 + ((ai % (sell_max_amount a good).toNat : ℕ) : ℤ)

/-- `Agent.gen_sell_order`: if no eligible good, return `0`; else pick a
good and an amount (via the determinizing indices `gi`, `ai`), reserve the
amount, submit the order to the stock's sell book, add the cost to
`_today_sells` and return the cost. -/
def Agent.gen_sell_order (a : Agent) (st : Stock) (gi ai : ℕ) : Agent × Stock × ℤ :=
  match pickGood (possibleSellGoods a (maxCost a)) gi with
  | none => (a, st, 0)
  | some good =>
    let amount := sell_amount a good ai
    let reserved1 := Function.update a.reserved_goods good (a.reserved_goods good + amount)
    let a1 := { a with reserved_goods := reserved1 }
    let cost := price good * amount
    ({ a1 with today_sells := a1.today_sells + cost }, st.sell a.name good amount, cost)

/-- `available_money = daily_limit * money - _today_buys` of `gen_buy_order`. -/
def availableMoney (a : Agent) : ℚ :=
  a.daily_limit * (a.money : ℚ) - (a.today_buys : ℚ)

/-- The `possible_goods` list comprehension of `gen_buy_order`: all goods of
the price table with `PRICES[good] <= available_money` (no inventory or
reservation condition on the buy side). -/
def possibleBuyGoods (available_money : ℚ) : List Good :=
  allGoods.filter fun g => decide ((price g : ℚ) ≤ available_money)

/-- `max_amount = int(math.floor(available_money/PRICES[good]))` (no `min`
with any stock on the buy side). -/
def buy_max_amount (a : Agent) (good : Good) : ℤ :=
  ⌊availableMoney a / (price good : ℚ)⌋

/-- The buy-side `amount` sample from `range(1, max_amount+1)`. -/
def buy_amount (a : Agent) (good : Good) (ai : ℕ) : ℤ :=
  1 + ((ai % (buy_max_amount a good).toNat : ℕ) : ℤ)

/-- `Agent.gen_buy_order`: if no affordable good, return `0`; else pick a
good and an amount, submit the order to the stock's buy book (no
reservation of money), add the cost to `_today_buys` and return the cost. -/
def Agent.gen_buy_order (a : Agent) (st : Stock) (gi ai : ℕ) : Agent × Stock × ℤ :=
  match pickGood (possibleBuyGoods (availableMoney a)) gi with
  | none => (a, st, 0)
  | some good =>
    let amount := buy_amount a good ai
    let cost := price good * amount
    ({ a with today_buys := a.today_buys + cost }, st.buy a.name good amount, cost)

/-- The exceptions `Stock.do_deal` can raise: a `KeyError` from a missing
`goods` dict key, or the two explicit `Exception(...)` precondition raises. -/
inductive DealError where
  | keyError
  | sellerShort
  | buyerShort
deriving DecidableEq

/-- `Stock.do_deal`, with the exact evaluation order of the source:
`cost = PRICES[good]*amount`; read `seller.goods[good]` (KeyError if the key
is missing) and raise if `< amount`; raise if `buyer.money < cost`; then
mutate `seller.goods[good] -= amount; seller.money += cost;
buyer.goods[good] += amount` (KeyError if the buyer's key is missing —
note the seller is already mutated at that point, which the error payload
records); `buyer.money -= cost`.  An error carries the two agents' states
at the moment the exception is raised. -/
def do_deal (seller buyer : Agent) (good : Good) (amount : ℤ) :
    Except (DealError × Agent × Agent) (Agent × Agent) :=
  let cost := price good * amount
  match seller.goods good with
  | none => .error (.keyError, seller, buyer)
  | some sg =>
    if sg < amount then .error (.sellerShort, seller, buyer)
    else if buyer.money < cost then .error (.buyerShort, seller, buyer)
    else
      let sgoods1 := Function.update seller.goods good (some (sg - amount))
      let seller1 := { seller with goods := sgoods1, money := seller.money + cost }
      match buyer.goods good with
      | none => .error (.keyError, seller1, buyer)
      | some bg =>
        let bgoods1 := Function.update buyer.goods good (some (bg + amount))
        .ok (seller1, { buyer with goods := bgoods1, money := buyer.money - cost })

/-- The seller's state after `seller.goods[good] -= amount; seller.money += cost`
(the first two mutations of `do_deal`), given `seller.goods[good] = sg`. -/
def seller_mutated (seller : Agent) (good : Good) (amount sg : ℤ) : Agent :=
  { seller with goods := Function.update seller.goods good (some (sg - amount)), money := seller.money + price good * amount }

/-- The buyer's state after `buyer.goods[good] += amount; buyer.money -= cost`
(the last two mutations of `do_deal`), given `buyer.goods[good] = bg`. -/
def buyer_mutated (buyer : Agent) (good : Good) (amount bg : ℤ) : Agent :=
  { buyer with goods := Function.update buyer.goods good (some (bg + amount)), money := buyer.money - price good * amount }

/-- The nested lock acquisition of `do_deal` (`with seller.lock: with
buyer.lock:`) as the sequence of agent identifiers whose locks are taken,
in acquisition order. -/
def lock_order (seller buyer : Agent) : List ℕ := [seller.name, buyer.name]

/-- A trade executed by `process_orders`: the book key `good`, the amount
passed to `do_deal`, and the matched sell and buy orders (as they were when
matched, i.e. before their `filled` flags were set). -/
structure Trade where
  good : Good
  amount : ℤ
  sell : Order
  buy : Order
deriving DecidableEq

/-- Writing two agents back into the population after a (possibly partial)
deal: the population maps agent names to agent states, so that the shared
mutable `Agent` objects of the source are modelled by indirection. -/
def updTwo (σ : ℕ → Agent) (i : ℕ) (x : Agent) (j : ℕ) (y : Agent) : ℕ → Agent :=
  Function.update (Function.update σ i x) j y

/-- Result of a (partial) clearing run: the updated population, the trades
executed so far, and whether the run was aborted by `sys.exit(-1)`. -/
structure ProcRes where
  agents : ℕ → Agent
  log : List Trade
  exited : Bool

/-- Result of scanning the buy book for one sell order. -/
structure ScanRes where
  agents : ℕ → Agent
  buys : List Order
  sell : Order
  log : List Trade
  exited : Bool

/-- The inner loop of `process_orders` for one sell order:
`for buy_order in random.sample(buy_orders, len(buy_orders))`, determinized
by the index list `idxs` (a permutation of the buy-book positions; any
sample outcome is some such list).  Skips filled orders, matches on equal
amount and distinct agents, and calls `do_deal`; an exception makes the
whole program exit (`sys.exit(-1)`), recorded as `exited := true` after
writing back the agent states carried by the error; on success both orders
are marked `filled` and the scan continues (all further iterations skip,
since the sell order is now filled). -/
def scanBuys : (ℕ → Agent) → Good → Order → List Order → List ℕ → ScanRes
  | σ, _, s, buys, [] => ⟨σ, buys, s, [], false⟩
  | σ, good, s, buys, i :: rest =>
    match buys.get? i with
    | none => scanBuys σ good s buys rest
    | some b =>
      if s.filled || b.filled then
        scanBuys σ good s buys rest
      else if b.amount = s.amount ∧ b.agent ≠ s.agent then
        match do_deal (σ s.agent) (σ b.agent) good s.amount with
        | .error (_, s', b') => ⟨updTwo σ s.agent s' b.agent b', buys, s, [], true⟩
        | .ok (s', b') =>
          let r := scanBuys (updTwo σ s.agent s' b.agent b') good { s with filled := true }
            (buys.set i { b with filled := true }) rest
          ⟨r.agents, r.buys, r.sell,
            { good := good, amount := s.amount, sell := s, buy := b } :: r.log, r.exited⟩
      else scanBuys σ good s buys rest

/-- The middle loop of `process_orders`: the (already shuffled) sell orders
of one good, scanned one after the other against the shared buy book;
`perms` supplies one buy-book permutation per sell order (the per-iteration
`random.sample`).  An exit aborts everything. -/
def processGood : (ℕ → Agent) → Good → List Order → List Order → List (List ℕ) → ProcRes
  | σ, _, [], _, _ => ⟨σ, [], false⟩
  | σ, good, s :: ss, buys, perms =>
    let r := scanBuys σ good s buys (perms.headD [])
    if r.exited then ⟨r.agents, r.log, true⟩
    else
      let r2 := processGood r.agents good ss r.buys perms.tail
      ⟨r2.agents, r.log ++ r2.log, r2.exited⟩

/-- `random.shuffle` / `random.sample` outcomes, determinized: an index list
applied to a list selects the elements at those positions (a permutation of
`0..len-1` yields exactly a shuffle outcome). -/
def applyPerm (p : List ℕ) (l : List Order) : List Order :=
  p.filterMap fun i => l.get? i

/-- `Stock.process_orders`: for each good of the sell book (the `plan`
supplies the dict's key order together with the determinized shuffle of its
sell list and the buy-book permutation for each sell order), run the
matching loop; a `do_deal` exception is caught, logged and answered with
`sys.exit(-1)`, which aborts the whole run (`exited := true`). -/
def process_orders : (ℕ → Agent) → Stock → List (Good × List ℕ × List (List ℕ)) → ProcRes
  | σ, _, [] => ⟨σ, [], false⟩
  | σ, st, (good, sp, bps) :: rest =>
    let r := processGood σ good (applyPerm sp (st.sells good)) (st.buys good) bps
    if r.exited then r
    else
      let r2 := process_orders r.agents st rest
      ⟨r2.agents, r.log ++ r2.log, r2.exited⟩

/-- One driver step of the day loop: a call to `gen_sell_order` or
`gen_buy_order` with its determinizing indices. -/
inductive Cmd where
  | sellc (gi ai : ℕ)
  | buyc (gi ai : ℕ)

/-- A sequence of order-generation calls on one agent within one day (the
driver's generation phase, before clearing mutates `money`/`goods`). -/
def runDay : Agent → Stock → List Cmd → Agent × Stock
  | a, st, [] => (a, st)
  | a, st, .sellc gi ai :: cs =>
    let r := a.gen_sell_order st gi ai
    runDay r.1 r.2.1 cs
  | a, st, .buyc gi ai :: cs =>
    let r := a.gen_buy_order st gi ai
    runDay r.1 r.2.1 cs

/-- `money ≥ 0` and every inventory quantity `≥ 0` (a missing dict key
counts as `0`). -/
def NonNeg (a : Agent) : Prop :=
  0 ≤ a.money ∧ ∀ g : Good, 0 ≤ (a.goods g).getD 0

instance (a : Agent) : Decidable (NonNeg a) := by
  unfold NonNeg; infer_instance

/-! Concrete fixtures used by the witnesses and counterexamples below.
They correspond to small populations the driver `model()` could create
(goods dicts over a subset of the 26 goods, starting money, a daily limit). -/

/-- The good `A` (price 1). -/
def g0 : Good := ⟨0, by decide⟩

/-- An empty order book. -/
def emptyStock : Stock := { sells := fun _ => [], buys := fun _ => [] }

/-- A seller owning 5 units of good `A` and no money. -/
def wSeller : Agent := Agent.init 0 0 (fun g => if g = g0 then some 5 else none) 1

/-- A buyer with 100 money and an explicit zero entry for good `A`. -/
def wBuyer : Agent := Agent.init 1 100 (fun g => if g = g0 then some 0 else none) 1

/-- A two-agent population: agent 0 is `wSeller`, every other id is `wBuyer`. -/
def wPop : ℕ → Agent := fun k => if k = 0 then wSeller else wBuyer

/-- A buyer whose `goods` dict has no key at all for the traded good
(`Agent.__init__` copies the starting inventory as given). -/
def wBuyerNoKey : Agent := Agent.init 1 100 (fun _ => none) 1

/-- The settlement of a 3-unit trade of `A` between `wSeller` and `wBuyer`. -/
def wRes : Except (DealError × Agent × Agent) (Agent × Agent) := do_deal wSeller wBuyer g0 3

/-- The seller's state after that settlement. -/
def wSellerAfter : Agent := (wRes.toOption.map Prod.fst).getD wSeller

/-- The buyer's state after that settlement. -/
def wBuyerAfter : Agent := (wRes.toOption.map Prod.snd).getD wBuyer

/-- A seller with stock for two orders of 3 units of `A`. -/
def xSeller : Agent := Agent.init 0 0 (fun g => if g = g0 then some 10 else none) 1

/-- A buyer with no money: its matched trade fails the settlement
precondition `buyer.money >= cost`. -/
def xPoor : Agent := Agent.init 1 0 (fun g => if g = g0 then some 0 else none) 1

/-- A solvent buyer whose matched trade would succeed. -/
def xRich : Agent := Agent.init 2 100 (fun g => if g = g0 then some 0 else none) 1

/-- Population for the clearing-abort run: ids 0, 1, 2. -/
def xPop : ℕ → Agent := fun k => if k = 0 then xSeller else if k = 1 then xPoor else xRich

/-- Books with two sell orders by agent 0 and buy orders by the poor and the
rich buyer, all for 3 units of `A`. -/
def xStock : Stock :=
  { sells := Function.update (fun _ => []) g0 [⟨0, g0, 3, false⟩, ⟨0, g0, 3, false⟩],
    buys := Function.update (fun _ => []) g0 [⟨1, g0, 3, false⟩, ⟨2, g0, 3, false⟩] }

/-- Clearing plan: good `A`, sell orders in list order, first sell order
scans buy position 0 (the poor buyer), the second would scan position 1. -/
def xPlan : List (Good × List ℕ × List (List ℕ)) := [(g0, [0, 1], [[0], [1]])]

/-- A seller that has committed its whole stock of `A` (5 units) to a sell
order: `reserved[A] = 5 = inventory[A]`, `today_sells = 5`, as after one
`gen_sell_order` call. -/
def rSeller : Agent :=
  { name := 0, money := 0, goods := fun g => if g = g0 then some 5 else none,
    daily_limit := 1, reserved_goods := Function.update (fun _ => 0) g0 5,
    today_sells := 5, today_buys := 0 }

/-- The matched buyer for `rSeller`'s order. -/
def rBuyer : Agent := Agent.init 1 100 (fun g => if g = g0 then some 0 else none) 1

/-- The settlement of `rSeller`'s fully-reserved 5-unit sell order. -/
def rRes : Except (DealError × Agent × Agent) (Agent × Agent) := do_deal rSeller rBuyer g0 5

/-- The seller's state after that settlement. -/
def rSellerAfter : Agent := (rRes.toOption.map Prod.fst).getD rSeller

/-- Whether an `Except` result is a success. -/
def isOkB {ε α : Type} : Except ε α → Bool
  | .ok _ => true
  | .error _ => false

/-- An agent with identifier 2 (seller role in the lock-order scenario). -/
def lockHigh : Agent := Agent.init 2 0 (fun _ => none) 1

/-- An agent with identifier 1 (buyer role in the lock-order scenario). -/
def lockLow : Agent := Agent.init 1 0 (fun _ => none) 1

/-- Books with one matching sell/buy pair for 3 units of `A`. -/
def mStock : Stock :=
  { sells := Function.update (fun _ => []) g0 [⟨0, g0, 3, false⟩],
    buys := Function.update (fun _ => []) g0 [⟨1, g0, 3, false⟩] }

/-- Clearing plan for `mStock`. -/
def mPlan : List (Good × List ℕ × List (List ℕ)) := [(g0, [0], [[0]])]

/-- The one trade that clearing `mStock` over `wPop` executes. -/
def mTrade : Trade := { good := g0, amount := 3, sell := ⟨0, g0, 3, false⟩, buy := ⟨1, g0, 3, false⟩ }

/-! Helper lemmas. -/

/-- Successful `do_deal`: both precondition checks pass and the buyer's
`goods` dict has the key, so the four mutations happen. -/
theorem do_deal_ok (seller buyer : Agent) (good : Good) (amount sg bg : ℤ)
    (hs : seller.goods good = some sg) (hb : buyer.goods good = some bg)
    (h1 : ¬ sg < amount) (h2 : ¬ buyer.money < price good * amount) :
    do_deal seller buyer good amount =
      .ok ({ seller with
               goods := Function.update seller.goods good (some (sg - amount)),
               money := seller.money + price good * amount },
           { buyer with
               goods := Function.update buyer.goods good (some (bg + amount)),
               money := buyer.money - price good * amount }) := by
  unfold do_deal
  rw [hs]
  simp only [if_neg h1, if_neg h2]
  rw [hb]

/-- Composing a pointwise update with a projection. -/
theorem comp_updTwo (σ : ℕ → Agent) (i j : ℕ) (x y : Agent) (φ : Agent → ℤ) (k : ℕ) :
    φ (updTwo σ i x j y k) =
      Function.update (Function.update (fun n => φ (σ n)) i (φ x)) j (φ y) k := by
  unfold updTwo
  rcases eq_or_ne k j with h | h
  · subst h; simp
  · rcases eq_or_ne k i with h2 | h2
    · subst h2; simp [Function.update_noteq h]
    · simp [Function.update_noteq h, Function.update_noteq h2]

/-- Replacing two distinct entries of a finite sum preserves the total when
the two new summands have the same pairwise sum. -/
theorem sum_two_update (m : ℕ → ℤ) (S : Finset ℕ) (i j : ℕ) (u v : ℤ)
    (hi : i ∈ S) (hj : j ∈ S) (hij : i ≠ j) (hsum : u + v = m i + m j) :
    ∑ k ∈ S, Function.update (Function.update m i u) j v k = ∑ k ∈ S, m k := by
  have hij' : i ∈ S.erase j := Finset.mem_erase.mpr ⟨hij, hi⟩
  rw [Finset.sum_update_of_mem hj, ← Finset.erase_eq,
    Finset.sum_update_of_mem hij', ← Finset.erase_eq,
    ← Finset.add_sum_erase _ m hj, ← Finset.add_sum_erase _ m hij']
  linarith

/-- Conservation of any additive projection under writing back the two
settled agents, given pairwise conservation. -/
theorem sum_updTwo_eq (σ : ℕ → Agent) (S : Finset ℕ) (i j : ℕ) (x y : Agent) (φ : Agent → ℤ)
    (hi : i ∈ S) (hj : j ∈ S) (hij : i ≠ j)
    (hsum : φ x + φ y = φ (σ i) + φ (σ j)) :
    (∑ k ∈ S, φ (updTwo σ i x j y k)) = ∑ k ∈ S, φ (σ k) := by
  rw [Finset.sum_congr rfl fun k _ => comp_updTwo σ i j x y φ k]
  exact sum_two_update (fun n => φ (σ n)) S i j (φ x) (φ y) hi hj hij hsum

/-- Prices are positive (`PRICES` maps the goods to `1..26`). -/
theorem price_pos (g : Good) : 0 < price g := by
  unfold price; omega

/-- Complete case analysis of `Stock.do_deal`, following the source's
evaluation order. -/
theorem do_deal_cases (seller buyer : Agent) (good : Good) (amount : ℤ) :
    (seller.goods good = none ∧
      do_deal seller buyer good amount = .error (.keyError, seller, buyer)) ∨
    (∃ sg, seller.goods good = some sg ∧ sg < amount ∧
      do_deal seller buyer good amount = .error (.sellerShort, seller, buyer)) ∨
    (∃ sg, seller.goods good = some sg ∧ ¬ sg < amount ∧
      buyer.money < price good * amount ∧
      do_deal seller buyer good amount = .error (.buyerShort, seller, buyer)) ∨
    (∃ sg, seller.goods good = some sg ∧ ¬ sg < amount ∧
      ¬ buyer.money < price good * amount ∧ buyer.goods good = none ∧
      do_deal seller buyer good amount =
        .error (.keyError, seller_mutated seller good amount sg, buyer)) ∨
    (∃ sg bg, seller.goods good = some sg ∧ buyer.goods good = some bg ∧
      ¬ sg < amount ∧ ¬ buyer.money < price good * amount ∧
      do_deal seller buyer good amount =
        .ok (seller_mutated seller good amount sg, buyer_mutated buyer good amount bg)) := by
  cases hsg : seller.goods good with
  | none =>
    refine Or.inl ⟨rfl, ?_⟩
    unfold do_deal; rw [hsg]
  | some sg =>
    by_cases h1 : sg < amount
    · refine Or.inr (Or.inl ⟨sg, rfl, h1, ?_⟩)
      unfold do_deal; rw [hsg]; simp only [if_pos h1]
    · by_cases h2 : buyer.money < price good * amount
      · refine Or.inr (Or.inr (Or.inl ⟨sg, rfl, h1, h2, ?_⟩))
        unfold do_deal; rw [hsg]; simp only [if_neg h1, if_pos h2]
      · cases hbg : buyer.goods good with
        | none =>
          refine Or.inr (Or.inr (Or.inr (Or.inl ⟨sg, rfl, h1, h2, rfl, ?_⟩)))
          unfold do_deal; rw [hsg]; simp only [if_neg h1, if_neg h2]; rw [hbg]; rfl
        | some bg =>
          refine Or.inr (Or.inr (Or.inr (Or.inr ⟨sg, bg, rfl, rfl, h1, h2, ?_⟩)))
          exact do_deal_ok seller buyer good amount sg bg hsg hbg h1 h2

/-- The seller-side mutation of a deal preserves nonnegativity when the
sufficient-stock check passed. -/
theorem NonNeg_seller_mutated (seller : Agent) (good : Good) (amount sg : ℤ)
    (h : NonNeg seller) (hamt : 0 ≤ amount) (hsg : seller.goods good = some sg)
    (h1 : ¬ sg < amount) : NonNeg (seller_mutated seller good amount sg) := by
  have hc : 0 ≤ price good * amount := mul_nonneg (price_pos good).le hamt
  refine ⟨add_nonneg h.1 hc, fun g => ?_⟩
  rcases eq_or_ne g good with hg | hg
  · subst hg
    simp only [seller_mutated, Function.update_same]
    simp only [Option.getD_some]
    omega
  · simpa only [seller_mutated, Function.update_noteq hg] using h.2 g

/-- The buyer-side mutation of a deal preserves nonnegativity when the
sufficient-money check passed. -/
theorem NonNeg_buyer_mutated (buyer : Agent) (good : Good) (amount bg : ℤ)
    (h : NonNeg buyer) (hamt : 0 ≤ amount) (hbg : buyer.goods good = some bg)
    (h2 : ¬ buyer.money < price good * amount) : NonNeg (buyer_mutated buyer good amount bg) := by
  have hbg0 : 0 ≤ bg := by
    have := h.2 good
    rw [hbg] at this
    simpa using this
  refine ⟨?_, fun g => ?_⟩
  · show 0 ≤ buyer.money - price good * amount
    omega
  rcases eq_or_ne g good with hg | hg
  · subst hg
    simp only [buyer_mutated, Function.update_same, Option.getD_some]
    omega
  · simpa only [buyer_mutated, Function.update_noteq hg] using h.2 g

/-- An element picked by `pickGood` comes from the list. -/
theorem pickGood_mem (l : List Good) (gi : ℕ) (g : Good) (h : pickGood l gi = some g) :
    g ∈ l := by
  cases l with
  | nil => simp [pickGood] at h
  | cons g1 tl =>
    unfold pickGood at h
    have hlen : gi % (g1 :: tl).length < (g1 :: tl).length := Nat.mod_lt _ (by simp)
    rw [List.get?_eq_get hlen] at h
    simp only [Option.getD_some, Option.some.injEq] at h
    exact h ▸ List.get_mem _ _ _

/-- Unfolding the eligibility filter of `gen_sell_order`. -/
theorem mem_possibleSellGoods (a : Agent) (mc : ℚ) (g : Good)
    (hg : g ∈ possibleSellGoods a mc) :
    ∃ v, a.goods g = some v ∧ 0 < v - a.reserved_goods g ∧ (price g : ℚ) ≤ mc := by
  unfold possibleSellGoods at hg
  obtain ⟨-, hcond⟩ := List.mem_filter.mp hg
  cases hv : a.goods g with
  | none => rw [hv] at hcond; simp at hcond
  | some v =>
    rw [hv] at hcond
    simp only [Bool.and_eq_true, decide_eq_true_eq] at hcond
    exact ⟨v, rfl, hcond.1, hcond.2⟩

/-- Unfolding the affordability filter of `gen_buy_order`. -/
theorem mem_possibleBuyGoods (av : ℚ) (g : Good) (hg : g ∈ possibleBuyGoods av) :
    (price g : ℚ) ≤ av := by
  unfold possibleBuyGoods at hg
  obtain ⟨-, hcond⟩ := List.mem_filter.mp hg
  simpa using hcond

/-- Affordability gives a positive floor: `floor(budget / price) ≥ 1`. -/
theorem one_le_floor_div (p : ℤ) (mc : ℚ) (hp : 0 < p) (hle : (p:ℚ) ≤ mc) :
    1 ≤ ⌊mc / (p:ℚ)⌋ := by
  have hp' : (0:ℚ) < (p:ℚ) := by exact_mod_cast hp
  rw [Int.le_floor, le_div_iff₀ hp']
  push_cast
  simpa using hle

/-- The sampled amount lies in `[1, max_amount]` whenever `max_amount ≥ 1`
(the `range(1, max_amount+1)` sample of the source). -/
theorem one_le_amount_and_le (m : ℤ) (ai : ℕ) (hm : 1 ≤ m) :
    1 ≤ 1 + ((ai % m.toNat : ℕ) : ℤ) ∧ 1 + ((ai % m.toNat : ℕ) : ℤ) ≤ m := by
  have ht : (1:ℕ) ≤ m.toNat := by omega
  have hlt : ai % m.toNat < m.toNat := Nat.mod_lt ai (by omega)
  omega

/-- An amount bounded by `floor(budget / price)` costs at most the budget. -/
theorem cost_le_of_le_floor (p amt : ℤ) (mc : ℚ) (hp : 0 < p)
    (hamt : amt ≤ ⌊mc / (p:ℚ)⌋) : ((p * amt : ℤ) : ℚ) ≤ mc := by
  have hp' : (0:ℚ) < (p:ℚ) := by exact_mod_cast hp
  have h4 : (p:ℚ) * ((⌊mc / (p:ℚ)⌋ : ℤ) : ℚ) ≤ mc := by
    calc (p:ℚ) * ((⌊mc / (p:ℚ)⌋ : ℤ) : ℚ)
        ≤ (p:ℚ) * (mc / (p:ℚ)) :=
          mul_le_mul_of_nonneg_left (Int.floor_le _) hp'.le
      _ = mc := by rw [mul_comm]; exact div_mul_cancel₀ _ (ne_of_gt hp')
  calc ((p * amt : ℤ) : ℚ) = (p:ℚ) * ((amt : ℤ) : ℚ) := by push_cast; ring
    _ ≤ (p:ℚ) * ((⌊mc / (p:ℚ)⌋ : ℤ) : ℚ) := by
        refine mul_le_mul_of_nonneg_left ?_ hp'.le
        exact_mod_cast hamt
    _ ≤ mc := h4

/-- An eligible good admits at least one sellable unit. -/
theorem sell_max_amount_ge_one (a : Agent) (g : Good)
    (hg : g ∈ possibleSellGoods a (maxCost a)) : 1 ≤ sell_max_amount a g := by
  obtain ⟨v, hv, hpos, hple⟩ := mem_possibleSellGoods a (maxCost a) g hg
  have hfl := one_le_floor_div (price g) (maxCost a) (price_pos g) hple
  unfold sell_max_amount
  rw [hv, Option.getD_some]
  exact le_min (by omega) hfl

/-- The cost of a generated sell order is within the remaining sell budget. -/
theorem sell_cost_le_maxCost (a : Agent) (g : Good) (ai : ℕ)
    (hg : g ∈ possibleSellGoods a (maxCost a)) :
    ((price g * sell_amount a g ai : ℤ) : ℚ) ≤ maxCost a := by
  have hmax1 := sell_max_amount_ge_one a g hg
  have hamt := one_le_amount_and_le (sell_max_amount a g) ai hmax1
  have h2 : sell_amount a g ai ≤ ⌊maxCost a / (price g : ℚ)⌋ :=
    le_trans hamt.2 (min_le_right _ _)
  exact cost_le_of_le_floor (price g) (sell_amount a g ai) (maxCost a) (price_pos g) h2

/-- The cost of a generated buy order is within the remaining buy budget. -/
theorem buy_cost_le_availableMoney (a : Agent) (g : Good) (ai : ℕ)
    (hg : g ∈ possibleBuyGoods (availableMoney a)) :
    ((price g * buy_amount a g ai : ℤ) : ℚ) ≤ availableMoney a := by
  have hple := mem_possibleBuyGoods _ _ hg
  have hfl := one_le_floor_div (price g) (availableMoney a) (price_pos g) hple
  have hamt := one_le_amount_and_le (buy_max_amount a g) ai hfl
  exact cost_le_of_le_floor (price g) (buy_amount a g ai) (availableMoney a) (price_pos g) hamt.2

/-- `gen_sell_order` when no good is eligible. -/
theorem gen_sell_order_none (a : Agent) (st : Stock) (gi ai : ℕ)
    (hp : pickGood (possibleSellGoods a (maxCost a)) gi = none) :
    a.gen_sell_order st gi ai = (a, st, 0) := by
  unfold Agent.gen_sell_order
  rw [hp]

/-- `gen_sell_order` when a good is picked. -/
theorem gen_sell_order_some (a : Agent) (st : Stock) (gi ai : ℕ) (good : Good)
    (hp : pickGood (possibleSellGoods a (maxCost a)) gi = some good) :
    a.gen_sell_order st gi ai =
      ({ a with
           reserved_goods := Function.update a.reserved_goods good
             (a.reserved_goods good + sell_amount a good ai),
           today_sells := a.today_sells + price good * sell_amount a good ai },
       st.sell a.name good (sell_amount a good ai),
       price good * sell_amount a good ai) := by
  unfold Agent.gen_sell_order
  rw [hp]

/-- `gen_buy_order` when no good is affordable. -/
theorem gen_buy_order_none (a : Agent) (st : Stock) (gi ai : ℕ)
    (hp : pickGood (possibleBuyGoods (availableMoney a)) gi = none) :
    a.gen_buy_order st gi ai = (a, st, 0) := by
  unfold Agent.gen_buy_order
  rw [hp]

/-- `gen_buy_order` when a good is picked. -/
theorem gen_buy_order_some (a : Agent) (st : Stock) (gi ai : ℕ) (good : Good)
    (hp : pickGood (possibleBuyGoods (availableMoney a)) gi = some good) :
    a.gen_buy_order st gi ai =
      ({ a with today_buys := a.today_buys + price good * buy_amount a good ai },
       st.buy a.name good (buy_amount a good ai),
       price good * buy_amount a good ai) := by
  unfold Agent.gen_buy_order
  rw [hp]

/-- `gen_sell_order` leaves `money`, `goods`, `daily_limit` and
`_today_buys` untouched. -/
theorem gen_sell_fields (a : Agent) (st : Stock) (gi ai : ℕ) :
    (a.gen_sell_order st gi ai).1.money = a.money ∧
    (a.gen_sell_order st gi ai).1.goods = a.goods ∧
    (a.gen_sell_order st gi ai).1.daily_limit = a.daily_limit ∧
    (a.gen_sell_order st gi ai).1.today_buys = a.today_buys := by
  cases hp : pickGood (possibleSellGoods a (maxCost a)) gi with
  | none => rw [gen_sell_order_none a st gi ai hp]; exact ⟨rfl, rfl, rfl, rfl⟩
  | some good => rw [gen_sell_order_some a st gi ai good hp]; exact ⟨rfl, rfl, rfl, rfl⟩

/-- `gen_buy_order` leaves `money`, `goods`, `daily_limit`,
`_reserved_goods` and `_today_sells` untouched. -/
theorem gen_buy_fields (a : Agent) (st : Stock) (gi ai : ℕ) :
    (a.gen_buy_order st gi ai).1.money = a.money ∧
    (a.gen_buy_order st gi ai).1.goods = a.goods ∧
    (a.gen_buy_order st gi ai).1.daily_limit = a.daily_limit ∧
    (a.gen_buy_order st gi ai).1.today_sells = a.today_sells ∧
    (a.gen_buy_order st gi ai).1.reserved_goods = a.reserved_goods := by
  cases hp : pickGood (possibleBuyGoods (availableMoney a)) gi with
  | none => rw [gen_buy_order_none a st gi ai hp]; exact ⟨rfl, rfl, rfl, rfl, rfl⟩
  | some good => rw [gen_buy_order_some a st gi ai good hp]; exact ⟨rfl, rfl, rfl, rfl, rfl⟩

/-- Inventory value only depends on the `goods` dict. -/
theorem goods_cost_congr (a b : Agent) (h : a.goods = b.goods) :
    a.goods_cost = b.goods_cost := by
  unfold Agent.goods_cost
  rw [h]

/-- One `gen_sell_order` call keeps `_today_sells` within the daily sell
budget `daily_limit * goods_cost`. -/
theorem gen_sell_today_sells_le (a : Agent) (st : Stock) (gi ai : ℕ)
    (hinv : (a.today_sells : ℚ) ≤ a.daily_limit * (a.goods_cost : ℚ)) :
    ((a.gen_sell_order st gi ai).1.today_sells : ℚ) ≤
      a.daily_limit * (a.goods_cost : ℚ) := by
  cases hp : pickGood (possibleSellGoods a (maxCost a)) gi with
  | none => rw [gen_sell_order_none a st gi ai hp]; exact hinv
  | some good =>
    rw [gen_sell_order_some a st gi ai good hp]
    show ((a.today_sells + price good * sell_amount a good ai : ℤ) : ℚ) ≤
      a.daily_limit * (a.goods_cost : ℚ)
    have hcost := sell_cost_le_maxCost a good ai (pickGood_mem _ _ _ hp)
    unfold maxCost at hcost
    rw [Int.cast_add]
    linarith

/-- One `gen_buy_order` call keeps `_today_buys` within the daily buy
budget `daily_limit * money`. -/
theorem gen_buy_today_buys_le (a : Agent) (st : Stock) (gi ai : ℕ)
    (hinv : (a.today_buys : ℚ) ≤ a.daily_limit * (a.money : ℚ)) :
    ((a.gen_buy_order st gi ai).1.today_buys : ℚ) ≤
      a.daily_limit * (a.money : ℚ) := by
  cases hp : pickGood (possibleBuyGoods (availableMoney a)) gi with
  | none => rw [gen_buy_order_none a st gi ai hp]; exact hinv
  | some good =>
    rw [gen_buy_order_some a st gi ai good hp]
    show ((a.today_buys + price good * buy_amount a good ai : ℤ) : ℚ) ≤
      a.daily_limit * (a.money : ℚ)
    have hcost := buy_cost_le_availableMoney a good ai (pickGood_mem _ _ _ hp)
    unfold availableMoney at hcost
    rw [Int.cast_add]
    linarith

/-- Any generation sequence preserves `money`, `goods` and `daily_limit`
and keeps both daily counters within their budgets. -/
theorem runDay_bounds : ∀ (cs : List Cmd) (a : Agent) (st : Stock),
    ((a.today_sells : ℚ) ≤ a.daily_limit * (a.goods_cost : ℚ)) →
    ((a.today_buys : ℚ) ≤ a.daily_limit * (a.money : ℚ)) →
    (runDay a st cs).1.money = a.money ∧
    (runDay a st cs).1.goods = a.goods ∧
    (runDay a st cs).1.daily_limit = a.daily_limit ∧
    (((runDay a st cs).1.today_sells : ℚ) ≤ a.daily_limit * (a.goods_cost : ℚ)) ∧
    (((runDay a st cs).1.today_buys : ℚ) ≤ a.daily_limit * (a.money : ℚ)) := by
  intro cs
  induction cs with
  | nil => intro a st h1 h2; exact ⟨rfl, rfl, rfl, h1, h2⟩
  | cons c cs ih =>
    intro a st h1 h2
    cases c with
    | sellc gi ai =>
      obtain ⟨hfm, hfg, hfd, hfb⟩ := gen_sell_fields a st gi ai
      have hgc := goods_cost_congr _ _ hfg
      have hs1 := gen_sell_today_sells_le a st gi ai h1
      obtain ⟨i1, i2, i3, i4, i5⟩ := ih (a.gen_sell_order st gi ai).1
        (a.gen_sell_order st gi ai).2.1
        (by rw [hfd, hgc]; exact hs1)
        (by rw [hfd, hfm, hfb]; exact h2)
      have e : runDay a st (Cmd.sellc gi ai :: cs) =
        runDay (a.gen_sell_order st gi ai).1 (a.gen_sell_order st gi ai).2.1 cs := rfl
      rw [e]
      rw [hfd, hgc] at i4
      rw [hfd, hfm] at i5
      exact ⟨by rw [i1, hfm], by rw [i2, hfg], by rw [i3, hfd], i4, i5⟩
    | buyc gi ai =>
      obtain ⟨hfm, hfg, hfd, hfs, hfr⟩ := gen_buy_fields a st gi ai
      have hgc := goods_cost_congr _ _ hfg
      have hb1 := gen_buy_today_buys_le a st gi ai h2
      obtain ⟨i1, i2, i3, i4, i5⟩ := ih (a.gen_buy_order st gi ai).1
        (a.gen_buy_order st gi ai).2.1
        (by rw [hfd, hgc, hfs]; exact h1)
        (by rw [hfd, hfm]; exact hb1)
      have e : runDay a st (Cmd.buyc gi ai :: cs) =
        runDay (a.gen_buy_order st gi ai).1 (a.gen_buy_order st gi ai).2.1 cs := rfl
      rw [e]
      rw [hfd, hgc] at i4
      rw [hfd, hfm] at i5
      exact ⟨by rw [i1, hfm], by rw [i2, hfg], by rw [i3, hfd], i4, i5⟩

/-! Claim theorems. -/

/-- C1: a trade executed by `Stock.do_deal` whose preconditions hold
(seller stocked, buyer funded, and the traded good present in both `goods`
dicts) changes exactly: seller inventory of the good down by `amount`,
seller money up by `cost = price * amount`, buyer inventory up by `amount`,
buyer money down by `cost`, and nothing else; consequently the population
totals of money and of the traded good are unchanged. -/
theorem C1_do_deal_effect_conservation (seller buyer : Agent) (good : Good) (amount sg bg : ℤ)
    (σ : ℕ → Agent) (S : Finset ℕ) (i j : ℕ)
    (hs : seller.goods good = some sg) (hb : buyer.goods good = some bg)
    (h1 : amount ≤ sg) (h2 : price good * amount ≤ buyer.money)
    (hi : i ∈ S) (hj : j ∈ S) (hij : i ≠ j) (hσi : σ i = seller) (hσj : σ j = buyer) :
    ∃ s' b', do_deal seller buyer good amount = .ok (s', b') ∧
      s'.goods good = some (sg - amount) ∧
      s'.money = seller.money + price good * amount ∧
      b'.goods good = some (bg + amount) ∧
      b'.money = buyer.money - price good * amount ∧
      (∀ g, g ≠ good → s'.goods g = seller.goods g ∧ b'.goods g = buyer.goods g) ∧
      s'.name = seller.name ∧ s'.reserved_goods = seller.reserved_goods ∧
      s'.daily_limit = seller.daily_limit ∧ s'.today_sells = seller.today_sells ∧
      s'.today_buys = seller.today_buys ∧
      b'.name = buyer.name ∧ b'.reserved_goods = buyer.reserved_goods ∧
      b'.daily_limit = buyer.daily_limit ∧ b'.today_sells = buyer.today_sells ∧
      b'.today_buys = buyer.today_buys ∧
      (∑ k ∈ S, (updTwo σ i s' j b' k).money) = (∑ k ∈ S, (σ k).money) ∧
      (∑ k ∈ S, ((updTwo σ i s' j b' k).goods good).getD 0) =
        (∑ k ∈ S, ((σ k).goods good).getD 0) := by
  refine ⟨seller_mutated seller good amount sg, buyer_mutated buyer good amount bg,
    do_deal_ok seller buyer good amount sg bg hs hb (not_lt.mpr h1) (not_lt.mpr h2),
    ?_, rfl, ?_, rfl,
    fun g hg => ⟨by simp only [seller_mutated, Function.update_noteq hg],
      by simp only [buyer_mutated, Function.update_noteq hg]⟩,
    rfl, rfl, rfl, rfl, rfl, rfl, rfl, rfl, rfl, rfl, ?_, ?_⟩
  · simp only [seller_mutated, Function.update_same]
  · simp only [buyer_mutated, Function.update_same]
  · refine sum_updTwo_eq σ S i j _ _ Agent.money hi hj hij ?_
    rw [hσi, hσj]
    show (seller.money + price good * amount) + (buyer.money - price good * amount) =
      seller.money + buyer.money
    ring
  · refine sum_updTwo_eq σ S i j _ _ (fun a => (a.goods good).getD 0) hi hj hij ?_
    rw [hσi, hσj]
    show ((Function.update seller.goods good (some (sg - amount)) good).getD 0) +
      ((Function.update buyer.goods good (some (bg + amount)) good).getD 0) =
      (seller.goods good).getD 0 + (buyer.goods good).getD 0
    rw [hs, hb]
    simp only [Function.update_same, Option.getD_some]
    ring

/-- Witness for C1: the 3-unit trade of good `A` between `wSeller` and
`wBuyer` in the two-agent population `wPop` succeeds and conserves the
totals of money and of good `A`. -/
theorem C1_witness :
    ∃ s' b', do_deal wSeller wBuyer g0 3 = .ok (s', b') ∧
      (∑ k ∈ ({0, 1} : Finset ℕ), (updTwo wPop 0 s' 1 b' k).money) =
        (∑ k ∈ ({0, 1} : Finset ℕ), (wPop k).money) ∧
      (∑ k ∈ ({0, 1} : Finset ℕ), ((updTwo wPop 0 s' 1 b' k).goods g0).getD 0) =
        (∑ k ∈ ({0, 1} : Finset ℕ), ((wPop k).goods g0).getD 0) := by
  obtain ⟨s', b', hok, _, _, _, _, _, _, _, _, _, _, _, _, _, _, _, hm, hg⟩ :=
    C1_do_deal_effect_conservation wSeller wBuyer g0 3 5 0 wPop {0, 1} 0 1 rfl rfl
      (by decide) (by decide) (by decide) (by decide) (by decide) rfl rfl
  exact ⟨s', b', hok, hm, hg⟩

/-- C4 (code-bug evidence): `do_deal` acquires `seller.lock` and then
`buyer.lock`, so the acquisition order depends on the seller/buyer role:
with agent ids 2 (seller) and 1 (buyer) the locks are taken as `[2, 1]`,
and with the roles swapped as `[1, 2]` — not a fixed global order, which is
exactly the circular-wait pattern the specification forbids. -/
theorem C4_lock_order_depends_on_role :
    lock_order lockHigh lockLow = [2, 1] ∧ lock_order lockLow lockHigh = [1, 2] ∧
    lock_order lockHigh lockLow ≠ lock_order lockLow lockHigh := by decide

/-- C8: starting from agents with nonnegative money and inventory, a
settlement with a nonnegative amount leaves every resulting agent state —
on success or at the moment an exception is raised — with nonnegative money
and inventory: the precondition checks `seller.goods[good] >= amount` and
`buyer.money >= cost` guard all four mutations. -/
theorem C8_no_negative_balances (seller buyer : Agent) (good : Good) (amount : ℤ)
    (hs : NonNeg seller) (hb : NonNeg buyer) (hamt : 0 ≤ amount) :
    (∀ s' b', do_deal seller buyer good amount = .ok (s', b') → NonNeg s' ∧ NonNeg b') ∧
    (∀ e s' b', do_deal seller buyer good amount = .error (e, s', b') →
      NonNeg s' ∧ NonNeg b') := by
  rcases do_deal_cases seller buyer good amount with
    ⟨_, heq⟩ | ⟨sg, hsg, _, heq⟩ | ⟨sg, hsg, _, _, heq⟩ |
    ⟨sg, hsg, h1, _, _, heq⟩ | ⟨sg, bg, hsg, hbg, h1, h2, heq⟩
  · refine ⟨fun s' b' h => ?_, fun e s' b' h => ?_⟩
    · rw [heq] at h; exact absurd h (by simp)
    · rw [heq] at h
      obtain ⟨-, h2, h3⟩ := by simpa using h
      rw [← h2, ← h3]; exact ⟨hs, hb⟩
  · refine ⟨fun s' b' h => ?_, fun e s' b' h => ?_⟩
    · rw [heq] at h; exact absurd h (by simp)
    · rw [heq] at h
      obtain ⟨-, h2, h3⟩ := by simpa using h
      rw [← h2, ← h3]; exact ⟨hs, hb⟩
  · refine ⟨fun s' b' h => ?_, fun e s' b' h => ?_⟩
    · rw [heq] at h; exact absurd h (by simp)
    · rw [heq] at h
      obtain ⟨-, h2, h3⟩ := by simpa using h
      rw [← h2, ← h3]; exact ⟨hs, hb⟩
  · refine ⟨fun s' b' h => ?_, fun e s' b' h => ?_⟩
    · rw [heq] at h; exact absurd h (by simp)
    · rw [heq] at h
      obtain ⟨-, h2, h3⟩ := by simpa using h
      rw [← h2, ← h3]
      exact ⟨NonNeg_seller_mutated seller good amount sg hs hamt hsg h1, hb⟩
  · refine ⟨fun s' b' h => ?_, fun e s' b' h => ?_⟩
    · rw [heq] at h
      obtain ⟨hA, hB⟩ := by simpa using h
      rw [← hA, ← hB]
      exact ⟨NonNeg_seller_mutated seller good amount sg hs hamt hsg h1,
        NonNeg_buyer_mutated buyer good amount bg hb hamt hbg h2⟩
    · rw [heq] at h; exact absurd h (by simp)

/-- Witness for C8: the 3-unit trade between `wSeller` and `wBuyer` leaves
both resulting agent states nonnegative. -/
theorem C8_witness : NonNeg wSellerAfter ∧ NonNeg wBuyerAfter :=
  (C8_no_negative_balances wSeller wBuyer g0 3 (by decide) (by decide) (by decide)).1
    wSellerAfter wBuyerAfter rfl

/-- C9: when both agents' `goods` dicts contain the traded good's key,
`Stock.do_deal` raises an exception exactly when a precondition fails
(`seller.goods[good] < amount` or `buyer.money < cost`), and whenever it
raises, both agents are returned unmutated — both checks precede all four
mutations. -/
theorem C9_error_atomicity (seller buyer : Agent) (good : Good) (amount sg bg : ℤ)
    (hs : seller.goods good = some sg) (hb : buyer.goods good = some bg) :
    ((∃ e s' b', do_deal seller buyer good amount = .error (e, s', b')) ↔
      (sg < amount ∨ buyer.money < price good * amount)) ∧
    (∀ e s' b', do_deal seller buyer good amount = .error (e, s', b') →
      s' = seller ∧ b' = buyer) := by
  by_cases h1 : sg < amount
  · have heq : do_deal seller buyer good amount = .error (.sellerShort, seller, buyer) := by
      unfold do_deal; rw [hs]; simp only [if_pos h1]
    refine ⟨⟨fun _ => Or.inl h1, fun _ => ⟨_, _, _, heq⟩⟩, fun e s' b' h => ?_⟩
    rw [heq] at h
    obtain ⟨-, h2, h3⟩ := by simpa using h
    exact ⟨h2.symm, h3.symm⟩
  · by_cases h2 : buyer.money < price good * amount
    · have heq : do_deal seller buyer good amount = .error (.buyerShort, seller, buyer) := by
        unfold do_deal; rw [hs]; simp only [if_neg h1, if_pos h2]
      refine ⟨⟨fun _ => Or.inr h2, fun _ => ⟨_, _, _, heq⟩⟩, fun e s' b' h => ?_⟩
      rw [heq] at h
      obtain ⟨-, hA, hB⟩ := by simpa using h
      exact ⟨hA.symm, hB.symm⟩
    · have heq := do_deal_ok seller buyer good amount sg bg hs hb h1 h2
      constructor
      · constructor
        · rintro ⟨e, s', b', h⟩
          rw [heq] at h
          exact absurd h (by simp)
        · rintro (h | h)
          · exact absurd h h1
          · exact absurd h h2
      · intro e s' b' h
        rw [heq] at h
        exact absurd h (by simp)

/-- Witness for C9: `wSeller` (5 units of `A`) against the penniless
`xPoor` for 7 units: the under-stock and under-funding conditions both
hold, the deal raises, and the agents are returned unmutated. -/
theorem C9_witness :
    ((∃ e s' b', do_deal wSeller xPoor g0 7 = .error (e, s', b')) ↔
      ((5:ℤ) < 7 ∨ xPoor.money < price g0 * 7)) ∧
    (∀ e s' b', do_deal wSeller xPoor g0 7 = .error (e, s', b') →
      s' = wSeller ∧ b' = xPoor) :=
  C9_error_atomicity wSeller xPoor g0 7 5 0 rfl rfl

/-- C10: if the buyer's `goods` dict lacks the traded good's key while both
spec-stated preconditions hold, `do_deal` raises a `KeyError` at
`buyer.goods[good] += amount` — after the seller has already been mutated. -/
theorem C10_buyer_missing_key (seller buyer : Agent) (good : Good) (amount sg : ℤ)
    (hs : seller.goods good = some sg) (hb : buyer.goods good = none)
    (h1 : amount ≤ sg) (h2 : price good * amount ≤ buyer.money) :
    do_deal seller buyer good amount =
      .error (.keyError, seller_mutated seller good amount sg, buyer) := by
  unfold do_deal
  rw [hs]
  simp only [if_neg (not_lt.mpr h1), if_neg (not_lt.mpr h2)]
  rw [hb]
  rfl

/-- Witness for C10: `wBuyerNoKey` was constructed by `Agent.__init__` with
an inventory missing the key for good `A` (while its reservation ledger is
total); the trade satisfies both spec preconditions yet raises `KeyError`. -/
theorem C10_witness :
    wSeller.goods g0 = some 5 ∧ wBuyerNoKey.goods g0 = none ∧
    (3:ℤ) ≤ 5 ∧ price g0 * 3 ≤ wBuyerNoKey.money ∧
    do_deal wSeller wBuyerNoKey g0 3 =
      .error (.keyError, seller_mutated wSeller g0 3 5, wBuyerNoKey) :=
  ⟨rfl, rfl, by decide, by decide,
    C10_buyer_missing_key wSeller wBuyerNoKey g0 3 5 rfl rfl (by decide) (by decide)⟩

/-- C2 counterexample: clearing `xStock` over `xPop`, the first matched
pair (seller 0, the penniless buyer 1) fails the settlement precondition,
and `process_orders` aborts the whole run (`sys.exit(-1)`): `exited` is
true and no trade at all is executed — in particular the second, perfectly
matchable pair (seller 0, rich buyer 2) is never processed, refuting
"clearing continues with the next pair rather than aborting the run". -/
theorem C2_counterexample :
    (process_orders xPop xStock xPlan).exited = true ∧
    (process_orders xPop xStock xPlan).log = [] := by decide

/-- C2 (amended): when the first matching buy order scanned for a sell
order fails settlement, the scan stops at once with `exited = true`
(`sys.exit(-1)` in the source): nothing is logged as traded, both orders
are left unfilled (the books and the sell order are returned unchanged),
and no further pair is processed. -/
theorem C2_settlement_failure_aborts (σ : ℕ → Agent) (good : Good) (s b : Order)
    (buys : List Order) (i : ℕ) (rest : List ℕ) (e : DealError) (s' b' : Agent)
    (hget : buys.get? i = some b) (hsf : s.filled = false) (hbf : b.filled = false)
    (hm : b.amount = s.amount) (hne : b.agent ≠ s.agent)
    (herr : do_deal (σ s.agent) (σ b.agent) good s.amount = .error (e, s', b')) :
    scanBuys σ good s buys (i :: rest) =
      ⟨updTwo σ s.agent s' b.agent b', buys, s, [], true⟩ := by
  unfold scanBuys
  rw [hget]
  simp only [hsf, hbf, Bool.or_self, Bool.false_eq_true, if_false]
  rw [if_pos ⟨hm, hne⟩, herr]

/-- Witness for C2 (amended): the failing first pair of the `xStock` run. -/
theorem C2_witness :
    scanBuys xPop g0 ⟨0, g0, 3, false⟩ [⟨1, g0, 3, false⟩] [0] =
      ⟨updTwo xPop 0 (xPop 0) 1 (xPop 1), [⟨1, g0, 3, false⟩], ⟨0, g0, 3, false⟩, [], true⟩ :=
  C2_settlement_failure_aborts xPop g0 ⟨0, g0, 3, false⟩ ⟨1, g0, 3, false⟩
    [⟨1, g0, 3, false⟩] 0 [] .buyerShort (xPop 0) (xPop 1)
    rfl rfl rfl rfl (by decide) rfl

/-- C3 counterexample: `rSeller` satisfies `reserved[A] ≤ inventory[A]`
(5 ≤ 5, the state after committing its whole stock to a sell order), the
settlement of that order succeeds, and afterwards the seller has
`inventory[A] = 0` but still `reserved[A] = 5`: `do_deal` decrements the
inventory without releasing the reservation, so the invariant does not hold
after settlement. -/
theorem C3_counterexample :
    rSeller.reserved_goods g0 ≤ (rSeller.goods g0).getD 0 ∧
    isOkB rRes = true ∧
    (rSellerAfter.goods g0).getD 0 < rSellerAfter.reserved_goods g0 := by decide

/-- C3 (amended): the reservation bound `reserved[g] ≤ inventory[g]` is an
invariant of the order-generation phase — `gen_sell_order` preserves it for
every good, since the reserved amount never exceeds the unreserved stock —
but it is not preserved by `Stock.do_deal`, which decrements the seller's
inventory without releasing the reservation (see the counterexample); the
bound is only re-established by `finish_day`. -/
theorem C3_gen_sell_preserves_reservation_bound (a : Agent) (st : Stock) (gi ai : ℕ)
    (hinv : ∀ g : Good, a.reserved_goods g ≤ (a.goods g).getD 0) :
    ∀ g : Good, ((a.gen_sell_order st gi ai).1).reserved_goods g ≤
      (((a.gen_sell_order st gi ai).1).goods g).getD 0 := by
  intro g
  cases hp : pickGood (possibleSellGoods a (maxCost a)) gi with
  | none => rw [gen_sell_order_none a st gi ai hp]; exact hinv g
  | some good =>
    rw [gen_sell_order_some a st gi ai good hp]
    show Function.update a.reserved_goods good
      (a.reserved_goods good + sell_amount a good ai) g ≤ (a.goods g).getD 0
    rcases eq_or_ne g good with hg | hg
    · subst hg
      rw [Function.update_same]
      have hmem := pickGood_mem _ _ _ hp
      have hmax1 := sell_max_amount_ge_one a g hmem
      have hamt : sell_amount a g ai ≤ sell_max_amount a g :=
        (one_le_amount_and_le (sell_max_amount a g) ai hmax1).2
      have hmin : sell_max_amount a g ≤ (a.goods g).getD 0 - a.reserved_goods g :=
        min_le_left _ _
      omega
    · rw [Function.update_noteq hg]; exact hinv g

/-- Witness for C3 (amended): `wSeller` satisfies the reservation bound and
still does after generating a sell order. -/
theorem C3_witness :
    ((wSeller.gen_sell_order emptyStock 0 0).1).reserved_goods g0 ≤
      (((wSeller.gen_sell_order emptyStock 0 0).1).goods g0).getD 0 :=
  C3_gen_sell_preserves_reservation_bound wSeller emptyStock 0 0 (by decide) g0

/-- C5: `gen_sell_order` returns `0` exactly when no eligible good exists
(a good with positive unreserved stock and price within the remaining sell
budget); otherwise the picked good is eligible, `max_amount =
min(inventory - reserved, floor(budget / price)) ≥ 1`, the picked amount
lies in `[1, max_amount]`, the reservation grows by the amount, the order
is submitted to the sell book, `_today_sells` grows by `price * amount`,
and that cost is returned. -/
theorem C5_gen_sell_order_spec (a : Agent) (st : Stock) (gi ai : ℕ) :
    ((a.gen_sell_order st gi ai).2.2 = 0 ↔ possibleSellGoods a (maxCost a) = []) ∧
    ∀ good, pickGood (possibleSellGoods a (maxCost a)) gi = some good →
      good ∈ possibleSellGoods a (maxCost a) ∧
      1 ≤ sell_max_amount a good ∧
      1 ≤ sell_amount a good ai ∧
      sell_amount a good ai ≤ sell_max_amount a good ∧
      ((a.gen_sell_order st gi ai).1).reserved_goods good =
        a.reserved_goods good + sell_amount a good ai ∧
      ((a.gen_sell_order st gi ai).1).today_sells =
        a.today_sells + price good * sell_amount a good ai ∧
      (a.gen_sell_order st gi ai).2.1 = st.sell a.name good (sell_amount a good ai) ∧
      (a.gen_sell_order st gi ai).2.2 = price good * sell_amount a good ai := by
  constructor
  · cases hp : pickGood (possibleSellGoods a (maxCost a)) gi with
    | none =>
      rw [gen_sell_order_none a st gi ai hp]
      have hnil : possibleSellGoods a (maxCost a) = [] := by
        cases hl : possibleSellGoods a (maxCost a) with
        | nil => rfl
        | cons x xs => rw [hl] at hp; exact absurd hp (by simp [pickGood])
      simp [hnil]
    | some good =>
      rw [gen_sell_order_some a st gi ai good hp]
      have hmem := pickGood_mem _ _ _ hp
      have hmax1 := sell_max_amount_ge_one a good hmem
      have hamt1 : 1 ≤ sell_amount a good ai :=
        (one_le_amount_and_le (sell_max_amount a good) ai hmax1).1
      have hpos : 0 < price good * sell_amount a good ai :=
        mul_pos (price_pos good) (by omega)
      constructor
      · intro h; exact absurd h (ne_of_gt hpos)
      · intro hnil; rw [hnil] at hmem; exact absurd hmem (List.not_mem_nil good)
  · intro good hp
    have hmem := pickGood_mem _ _ _ hp
    have hmax1 := sell_max_amount_ge_one a good hmem
    have hamt1 : 1 ≤ sell_amount a good ai :=
      (one_le_amount_and_le (sell_max_amount a good) ai hmax1).1
    have hamt2 : sell_amount a good ai ≤ sell_max_amount a good :=
      (one_le_amount_and_le (sell_max_amount a good) ai hmax1).2
    rw [gen_sell_order_some a st gi ai good hp]
    exact ⟨hmem, hmax1, hamt1, hamt2, Function.update_same _ _ _, rfl, rfl, rfl⟩

/-- Witness for C5: `wSeller` (5 units of `A`, budget 5) picks good `A`;
the exhaustion iff holds and the returned cost is `price(A) * amount`. -/
theorem C5_witness :
    ((wSeller.gen_sell_order emptyStock 0 4).2.2 = 0 ↔
      possibleSellGoods wSeller (maxCost wSeller) = []) ∧
    1 ≤ sell_max_amount wSeller g0 ∧
    ((wSeller.gen_sell_order emptyStock 0 4).1).reserved_goods g0 =
      wSeller.reserved_goods g0 + sell_amount wSeller g0 4 ∧
    (wSeller.gen_sell_order emptyStock 0 4).2.2 = price g0 * sell_amount wSeller g0 4 := by
  have hmc : maxCost wSeller = 5 := by
    unfold maxCost
    rw [show wSeller.goods_cost = 5 from by decide]
    show (1:ℚ) * ((5:ℤ):ℚ) - ((0:ℤ):ℚ) = 5
    norm_num
  have hposs : possibleSellGoods wSeller (maxCost wSeller) = [g0] := by
    rw [show possibleSellGoods wSeller (maxCost wSeller) =
      possibleSellGoods wSeller 5 from by rw [hmc]]
    decide
  have hpick : pickGood (possibleSellGoods wSeller (maxCost wSeller)) 0 = some g0 := by
    rw [hposs]
    decide
  obtain ⟨hmem, hmax1, -, -, hres, -, -, hcost⟩ :=
    (C5_gen_sell_order_spec wSeller emptyStock 0 4).2 g0 hpick
  exact ⟨(C5_gen_sell_order_spec wSeller emptyStock 0 4).1, hmax1, hres, hcost⟩

/-- C7: over any sequence of `gen_sell_order` / `gen_buy_order` calls in one
day (clearing not yet run, so `money` and `goods` are at their day-start
values), the committed sell value `_today_sells` stays within
`daily_limit * inventory value at day start` and the committed buy value
`_today_buys` stays within `daily_limit * money at day start`. -/
theorem C7_daily_limits (a : Agent) (st : Stock) (cs : List Cmd)
    (hts : a.today_sells = 0) (htb : a.today_buys = 0)
    (hdl : 0 ≤ a.daily_limit) (hm : 0 ≤ a.money) (hgc : 0 ≤ a.goods_cost) :
    ((runDay a st cs).1.today_sells : ℚ) ≤ a.daily_limit * (a.goods_cost : ℚ) ∧
    ((runDay a st cs).1.today_buys : ℚ) ≤ a.daily_limit * (a.money : ℚ) := by
  have h1 : (a.today_sells : ℚ) ≤ a.daily_limit * (a.goods_cost : ℚ) := by
    rw [hts]
    push_cast
    exact mul_nonneg hdl (by exact_mod_cast hgc)
  have h2 : (a.today_buys : ℚ) ≤ a.daily_limit * (a.money : ℚ) := by
    rw [htb]
    push_cast
    exact mul_nonneg hdl (by exact_mod_cast hm)
  obtain ⟨-, -, -, h4, h5⟩ := runDay_bounds cs a st h1 h2
  exact ⟨h4, h5⟩

/-- Witness for C7: two generation calls on `wBuyer` respect both daily
limits. -/
theorem C7_witness :
    ((runDay wBuyer emptyStock [Cmd.sellc 0 0, Cmd.buyc 0 0]).1.today_sells : ℚ) ≤
      wBuyer.daily_limit * (wBuyer.goods_cost : ℚ) ∧
    ((runDay wBuyer emptyStock [Cmd.sellc 0 0, Cmd.buyc 0 0]).1.today_buys : ℚ) ≤
      wBuyer.daily_limit * (wBuyer.money : ℚ) :=
  C7_daily_limits wBuyer emptyStock [Cmd.sellc 0 0, Cmd.buyc 0 0] rfl rfl
    (by show (0:ℚ) ≤ 1; norm_num) (by decide) (by decide)

/-- Every trade logged by the buy-book scan was matched under the guard
`buy_order.amount == sell_order.amount and buy_order.agent != sell_order.agent`
and executed for exactly the sell order's amount. -/
theorem scanBuys_log_sound : ∀ (idxs : List ℕ) (σ : ℕ → Agent) (good : Good) (s : Order)
    (buys : List Order) (t : Trade), t ∈ (scanBuys σ good s buys idxs).log →
    t.amount = t.sell.amount ∧ t.buy.amount = t.sell.amount ∧
    t.buy.agent ≠ t.sell.agent := by
  intro idxs
  induction idxs with
  | nil =>
    intro σ good s buys t ht
    simp only [scanBuys] at ht
    exact absurd ht (List.not_mem_nil t)
  | cons i rest ih =>
    intro σ good s buys t ht
    simp only [scanBuys] at ht
    split at ht
    · exact ih _ _ _ _ _ ht
    · split at ht
      · exact ih _ _ _ _ _ ht
      · split at ht
        · rename_i b heq hfill hcond
          split at ht
          · exact absurd ht (List.not_mem_nil t)
          · rcases List.mem_cons.mp ht with rfl | hmem
            · exact ⟨rfl, hcond.1, hcond.2⟩
            · exact ih _ _ _ _ _ hmem
        · exact ih _ _ _ _ _ ht

/-- Every trade logged while clearing one good's sell list satisfies the
matching guard. -/
theorem processGood_log_sound : ∀ (sells : List Order) (σ : ℕ → Agent) (good : Good)
    (buys : List Order) (perms : List (List ℕ)) (t : Trade),
    t ∈ (processGood σ good sells buys perms).log →
    t.amount = t.sell.amount ∧ t.buy.amount = t.sell.amount ∧
    t.buy.agent ≠ t.sell.agent := by
  intro sells
  induction sells with
  | nil =>
    intro σ good buys perms t ht
    simp only [processGood] at ht
    exact absurd ht (List.not_mem_nil t)
  | cons s ss ih =>
    intro σ good buys perms t ht
    simp only [processGood] at ht
    split at ht
    · exact scanBuys_log_sound _ _ _ _ _ _ ht
    · rcases List.mem_append.mp ht with h | h
      · exact scanBuys_log_sound _ _ _ _ _ _ h
      · exact ih _ _ _ _ _ h

/-- C6: every trade executed by `process_orders` pairs a sell order and a
buy order with identical amounts and distinct agents, and is executed for
exactly that common amount (orders are filled entirely or not at all — no
partial or split-quantity fill). -/
theorem C6_exact_amount_no_self_trade (σ : ℕ → Agent) (st : Stock)
    (plan : List (Good × List ℕ × List (List ℕ))) (t : Trade)
    (ht : t ∈ (process_orders σ st plan).log) :
    t.amount = t.sell.amount ∧ t.buy.amount = t.sell.amount ∧
    t.buy.agent ≠ t.sell.agent := by
  revert ht
  induction plan generalizing σ with
  | nil =>
    intro ht
    simp only [process_orders] at ht
    exact absurd ht (List.not_mem_nil t)
  | cons entry rest ih =>
    intro ht
    obtain ⟨good, sp, bps⟩ := entry
    simp only [process_orders] at ht
    split at ht
    · exact processGood_log_sound _ _ _ _ _ _ ht
    · rcases List.mem_append.mp ht with h | h
      · exact processGood_log_sound _ _ _ _ _ _ h
      · exact ih _ h

/-- Witness for C6: clearing `mStock` over `wPop` executes exactly the
trade `mTrade`, which satisfies the exact-amount and no-self-trade
properties. -/
theorem C6_witness :
    mTrade ∈ (process_orders wPop mStock mPlan).log ∧
    mTrade.amount = mTrade.sell.amount ∧ mTrade.buy.amount = mTrade.sell.amount ∧
    mTrade.buy.agent ≠ mTrade.sell.agent :=
  ⟨by decide, C6_exact_amount_no_self_trade wPop mStock mPlan mTrade (by decide)⟩

end Hermes
